import Mathlib

/-!
Verification of the quiz-session core of the AZ-900 quiz application
(`src/pages/QuizApp.tsx`).

The embedding below translates the component's data model and event
handlers into Lean.  React state hooks become fields of `SessionState`;
each handler (`startQuiz`, `submitAnswer`, `nextQuestion`, `resetQuiz`,
the option-row click) becomes a state-transformation function; the
user-visible event surface (which buttons and controls are actually
rendered and enabled in each mode, per the JSX) becomes the guarded
`step` function; a whole interactive session is a fold of `step` over a
list of events starting from the initial state with a loaded dataset.
-/

namespace AzQuiz

/-- Splits a character list at every occurrence of `sep`, mirroring the
semantics of JavaScript `String.prototype.split` with a one-character
separator: the empty string yields `[""]`, adjacent separators yield
empty fields, and leading/trailing separators yield empty fields. -/
def splitChar (sep : Char) : List Char → List (List Char)
  | [] => [[]]
  | c :: cs =>
    match splitChar sep cs with
    | [] => [[c]]
    | t :: ts => if c = sep then [] :: t :: ts else (c :: t) :: ts

/-- JavaScript `s.split(sep)` for a single-character separator. -/
def jsSplit (s : String) (sep : Char) : List String :=
  (splitChar sep s.data).map (fun cs => String.mk cs)

/-- Boolean lexicographic order on character lists by code point,
mirroring JavaScript's default string comparison used by
`Array.prototype.sort()` (code-unit order; identical to code-point
order on the basic multilingual plane, which covers all values in this
dataset's filter fields). -/
def lexLe : List Char → List Char → Bool
  | [], _ => true
  | _ :: _, [] => false
  | a :: as, b :: bs =>
    if a.toNat < b.toNat then true
    else if b.toNat < a.toNat then false
    else lexLe as bs

/-- Lexicographic order on strings, as used by JavaScript `sort()`. -/
def strLe (a b : String) : Bool := lexLe a.data b.data

/-- One row of the parsed questions CSV (`QuestionRow` in the source).
The `difficulty` and `type` fields are kept as strings: the TypeScript
union types are erasure-only annotations, and CSV parsing performs no
validation of them. -/
structure QuestionRow where
  set_id : String
  question_id : String
  domain : String
  objective : String
  difficulty : String
  type : String
  question : String
  option_a : String
  option_b : String
  option_c : String
  option_d : String
  option_e : String
  option_f : String
  correct : String
  explanation : String
  image_url : String
  tags : String
deriving DecidableEq

/-- One history entry (`QuizHistory` in the source): the question, the
selection at submission time, and the correctness flag. -/
structure QuizHistory where
  q : QuestionRow
  sel : List String
  ok : Bool
deriving DecidableEq

/-- The `mode` state hook's value. -/
inductive Mode
  | home
  | quiz
  | review
  | results
  | coverage
deriving DecidableEq

/-- The component's state hooks.  `filtered` is not stored: the source
keeps it in sync with `allQs`/`setId`/`domain`/`diff` through a
`useEffect`, so it is represented here as the derived value
`filteredQs`.  `darkMode` only toggles a CSS class and carries no
session logic, so it is omitted. -/
structure SessionState where
  allQs : List QuestionRow
  setId : String
  domain : String
  diff : String
  currentIdx : Nat
  score : Nat
  selected : List String
  history : List QuizHistory
  mode : Mode
  showAnswer : Bool
deriving DecidableEq

/-- The filter of the `useEffect` at lines 90-95: a row passes when each
dimension with a non-empty selection (JavaScript truthiness of a string
is non-emptiness) equals the row's field. -/
def applyFilters (allQs : List QuestionRow) (setId domain diff : String) :
    List QuestionRow :=
  allQs.filter fun q =>
    (setId == "" || q.set_id == setId) &&
    (domain == "" || q.domain == domain) &&
    (diff == "" || q.difficulty == diff)

/-- The derived `filtered` list of the current state. -/
def filteredQs (s : SessionState) : List QuestionRow :=
  applyFilters s.allQs s.setId s.domain s.diff

/-- `const current = filtered[currentIdx]` — `none` models JavaScript
`undefined` when the index is out of range. -/
def currentQ (s : SessionState) : Option QuestionRow :=
  (filteredQs s)[s.currentIdx]?

/-- The correctness computation inside `submitAnswer`:
`const corr = current.correct.split(";")` followed by
`selected.length === corr.length && selected.every(s => corr.includes(s))`. -/
def answerOk (sel : List String) (correct : String) : Bool :=
  let corr := jsSplit correct ';'
  sel.length == corr.length && sel.all fun x => corr.contains x

/-- The `startQuiz` handler (lines 101-109).  When the filtered list is
empty it shows a blocking `alert` and returns without touching state;
otherwise it resets the session fields and enters quiz mode. -/
def startQuiz (s : SessionState) : SessionState :=
  if (filteredQs s).length = 0 then s
  else
    { s with currentIdx := 0, score := 0, selected := [], history := [],
             showAnswer := false, mode := Mode.quiz }

/-- The `submitAnswer` handler (lines 111-119).  Its own guard is
`if (!current || selected.length === 0) return;`; it appends a history
entry, bumps the score when correct, and reveals the answer. -/
def submitAnswer (s : SessionState) : SessionState :=
  match currentQ s with
  | none => s
  | some cur =>
    if s.selected.length = 0 then s
    else
      let ok := answerOk s.selected cur.correct
      { s with score := s.score + (if ok then 1 else 0),
               history := s.history ++ [{ q := cur, sel := s.selected, ok := ok }],
               showAnswer := true }

/-- The `nextQuestion` handler (lines 121-129). -/
def nextQuestion (s : SessionState) : SessionState :=
  if s.currentIdx + 1 ≥ (filteredQs s).length then { s with mode := Mode.results }
  else
    { s with currentIdx := s.currentIdx + 1, selected := [], showAnswer := false }

/-- The `resetQuiz` handler (lines 131-138). -/
def resetQuiz (s : SessionState) : SessionState :=
  { s with mode := Mode.home, currentIdx := 0, score := 0, selected := [],
           history := [], showAnswer := false }

/-- `current?.type === "multi"` — `false` when `current` is `undefined`. -/
def currentIsMulti (s : SessionState) : Bool :=
  match currentQ s with
  | some c => c.type == "multi"
  | none => false

/-- The `OptionRow` click handler (lines 172-178): no-op once the answer
is revealed; otherwise replace the selection by the singleton for a
single-answer question, and toggle membership for a multi-answer one. -/
def toggleOption (s : SessionState) (k : String) : SessionState :=
  if s.showAnswer then s
  else
    { s with selected :=
        if currentIsMulti s then
          (if s.selected.contains k then s.selected.filter (fun i => i != k)
           else s.selected ++ [k])
        else [k] }

/-- The option letters paired with their texts, in the layout order of
`renderQuiz` (lines 349-354). -/
def optionPairs (q : QuestionRow) : List (String × String) :=
  [("A", q.option_a), ("B", q.option_b), ("C", q.option_c),
   ("D", q.option_d), ("E", q.option_e), ("F", q.option_f)]

/-- The letters whose option row is actually rendered: `OptionRow`
returns `null` for an empty text, and rows E/F are additionally guarded
by the same non-emptiness condition. -/
def availableLetters (q : QuestionRow) : List String :=
  ((optionPairs q).filter fun p => p.2 != "").map Prod.fst

/-- A click on option letter `k` is possible iff the quiz screen is
rendered (`mode === "quiz"`, line 589), a current question exists
(`renderQuiz` early-returns otherwise, line 310), and the letter's row
is rendered. -/
def togglePermitted (s : SessionState) (k : String) : Prop :=
  s.mode = Mode.quiz ∧
    (match currentQ s with
     | some c => k ∈ availableLetters c
     | none => False)

instance (s : SessionState) (k : String) : Decidable (togglePermitted s k) := by
  unfold togglePermitted
  cases currentQ s <;> exact inferInstance

/-- The Submit button exists iff the quiz screen is rendered with a
current question and `!showAnswer` (line 372), and it is enabled iff the
selection is non-empty (`disabled={selected.length === 0}`, line 373). -/
def submitPermitted (s : SessionState) : Prop :=
  s.mode = Mode.quiz ∧ (currentQ s).isSome = true ∧ s.showAnswer = false ∧
    s.selected ≠ []

instance (s : SessionState) : Decidable (submitPermitted s) :=
  inferInstanceAs (Decidable (_ ∧ _ ∧ _ ∧ _))

/-- The Next button exists iff the quiz screen is rendered with a
current question and the answer is revealed (line 377). -/
def nextPermitted (s : SessionState) : Prop :=
  s.mode = Mode.quiz ∧ (currentQ s).isSome = true ∧ s.showAnswer = true

instance (s : SessionState) : Decidable (nextPermitted s) :=
  inferInstanceAs (Decidable (_ ∧ _ ∧ _))

/-- The discrete user events that can reach a handler.  Filter changes
are only possible on the home screen (the selects live in `renderHome`);
`viewReviewE` is the "Review Answers" button of the results screen;
`resetE` covers every rendered path to `resetQuiz` (header Home button,
in-quiz Reset, "Take Another Quiz"). -/
inductive Event
  | setSetIdE (v : String)
  | setDomainE (v : String)
  | setDiffE (v : String)
  | startE
  | toggleE (k : String)
  | submitE
  | nextE
  | resetE
  | viewReviewE

/-- One user event applied to a state: the handler runs iff its control
is rendered and enabled in that state; otherwise the state is
unchanged. -/
def step (s : SessionState) : Event → SessionState
  | Event.setSetIdE v => if s.mode = Mode.home then { s with setId := v } else s
  | Event.setDomainE v => if s.mode = Mode.home then { s with domain := v } else s
  | Event.setDiffE v => if s.mode = Mode.home then { s with diff := v } else s
  | Event.startE => if s.mode = Mode.home then startQuiz s else s
  | Event.toggleE k => if togglePermitted s k then toggleOption s k else s
  | Event.submitE => if submitPermitted s then submitAnswer s else s
  | Event.nextE => if nextPermitted s then nextQuestion s else s
  | Event.resetE => resetQuiz s
  | Event.viewReviewE =>
      if s.mode = Mode.results then { s with mode := Mode.review } else s

/-- The state right after the one-time CSV load resolved with `qs`:
every session hook still holds its `useState` initial value. -/
def initState (qs : List QuestionRow) : SessionState :=
  { allQs := qs, setId := "", domain := "", diff := "", currentIdx := 0,
    score := 0, selected := [], history := [], mode := Mode.home,
    showAnswer := false }

/-- Running a list of user events from a given state. -/
def runFrom (s : SessionState) (es : List Event) : SessionState :=
  es.foldl step s

/-- A whole session: the events `es` applied to the freshly loaded
dataset `qs`.  Every reachable state is `run qs es` for some trace. -/
def run (qs : List QuestionRow) (es : List Event) : SessionState :=
  runFrom (initState qs) es

/-- `setOptions` (line 85): distinct `set_id` values of the full
dataset, sorted.  JavaScript's `Array.from(new Set(xs))` deduplicates
keeping first occurrences and `.sort()` then orders them; since the
result is duplicate-free, sorting after any deduplication yields the
same list, so `List.dedup` followed by insertion sort is extensionally
the same computation. -/
def setOptions (qs : List QuestionRow) : List String :=
  List.insertionSort (fun a b => strLe a b = true) (qs.map (fun q => q.set_id)).dedup

/-- `domainOptions` (line 86): distinct `domain` values, sorted. -/
def domainOptions (qs : List QuestionRow) : List String :=
  List.insertionSort (fun a b => strLe a b = true) (qs.map (fun q => q.domain)).dedup

/-- `difficultyOptions` (line 87): a hardcoded constant, not derived
from the dataset. -/
def difficultyOptions : List String := ["easy", "medium", "hard"]

/-- The sorted distinct values of a list of field values — the shape the
specification asserts for every option list. -/
def sortedDistinct (vals : List String) : List String :=
  List.insertionSort (fun a b => strLe a b = true) vals.dedup

/-- The count of submit actions issued since the last session-clearing
action (a successful start, or a reset) along a trace: `c` is the count
accumulated so far when the trace `es` begins in state `s`.  A submit
action is issued exactly when its control is rendered and enabled
(`submitPermitted`); a start clears the count only when it actually
starts a session. -/
def submitsSince (c : Nat) (s : SessionState) : List Event → Nat
  | [] => c
  | e :: es =>
    submitsSince
      (match e with
       | Event.resetE => 0
       | Event.startE =>
           if s.mode = Mode.home ∧ filteredQs s ≠ [] then 0 else c
       | Event.submitE => if submitPermitted s then c + 1 else c
       | _ => c)
      (step s e) es

/-- Fixture: a single-answer question whose correct spec is the one
letter `A`. -/
def qSingle : QuestionRow :=
  { set_id := "S1", question_id := "q1", domain := "Core", objective := "",
    difficulty := "easy", type := "single", question := "Q1",
    option_a := "alpha", option_b := "beta", option_c := "", option_d := "",
    option_e := "", option_f := "", correct := "A", explanation := "",
    image_url := "", tags := "" }

/-- Fixture: a multi-answer question whose correct spec is `B;C`. -/
def qMulti : QuestionRow :=
  { set_id := "S1", question_id := "q2", domain := "Core", objective := "",
    difficulty := "hard", type := "multi", question := "Q2",
    option_a := "alpha", option_b := "beta", option_c := "gamma",
    option_d := "", option_e := "", option_f := "", correct := "B;C",
    explanation := "", image_url := "", tags := "" }

/-- Fixture: a question whose correct-answer spec repeats a letter
(`A;A`), exercising the scoring of duplicate tokens. -/
def qRepeat : QuestionRow :=
  { set_id := "S1", question_id := "q3", domain := "Core", objective := "",
    difficulty := "easy", type := "single", question := "Q3",
    option_a := "alpha", option_b := "beta", option_c := "", option_d := "",
    option_e := "", option_f := "", correct := "A;A", explanation := "",
    image_url := "", tags := "" }

/-- Fixture state: the single-answer session freshly started. -/
def sSingleStart : SessionState := run [qSingle] [Event.startE]

/-- Fixture state: the single-answer session with letter `A` selected,
before submitting. -/
def sSingleSel : SessionState := run [qSingle] [Event.startE, Event.toggleE "A"]

/-- Fixture state: the single-answer session after submitting, i.e. with
the answer revealed. -/
def sSingleDone : SessionState :=
  run [qSingle] [Event.startE, Event.toggleE "A", Event.submitE]

/-- Fixture state: the multi-answer session freshly started. -/
def sMultiStart : SessionState := run [qMulti] [Event.startE]

/-- Fixture state: the multi-answer session with letter `B` selected. -/
def sMultiB : SessionState := run [qMulti] [Event.startE, Event.toggleE "B"]

/-- Fixture state: the repeated-token session with letter `A` selected,
before submitting. -/
def sRepeatSel : SessionState := run [qRepeat] [Event.startE, Event.toggleE "A"]

/-! ### Reduction lemmas for `step` -/

theorem step_setSetIdE (s : SessionState) (v : String) :
    step s (Event.setSetIdE v) =
      if s.mode = Mode.home then { s with setId := v } else s := rfl

theorem step_setDomainE (s : SessionState) (v : String) :
    step s (Event.setDomainE v) =
      if s.mode = Mode.home then { s with domain := v } else s := rfl

theorem step_setDiffE (s : SessionState) (v : String) :
    step s (Event.setDiffE v) =
      if s.mode = Mode.home then { s with diff := v } else s := rfl

theorem step_startE (s : SessionState) :
    step s Event.startE = if s.mode = Mode.home then startQuiz s else s := rfl

theorem step_toggleE (s : SessionState) (k : String) :
    step s (Event.toggleE k) =
      if togglePermitted s k then toggleOption s k else s := rfl

theorem step_submitE (s : SessionState) :
    step s Event.submitE = if submitPermitted s then submitAnswer s else s := rfl

theorem step_nextE (s : SessionState) :
    step s Event.nextE = if nextPermitted s then nextQuestion s else s := rfl

theorem step_resetE (s : SessionState) : step s Event.resetE = resetQuiz s := rfl

theorem step_viewReviewE (s : SessionState) :
    step s Event.viewReviewE =
      if s.mode = Mode.results then { s with mode := Mode.review } else s := rfl

/-! ### Frame lemmas for the handlers -/

theorem filteredQs_congr (s t : SessionState) (h1 : t.allQs = s.allQs)
    (h2 : t.setId = s.setId) (h3 : t.domain = s.domain) (h4 : t.diff = s.diff) :
    filteredQs t = filteredQs s := by
  unfold filteredQs
  rw [h1, h2, h3, h4]

theorem toggleOption_frame (s : SessionState) (k : String) :
    (toggleOption s k).allQs = s.allQs ∧ (toggleOption s k).setId = s.setId ∧
    (toggleOption s k).domain = s.domain ∧ (toggleOption s k).diff = s.diff ∧
    (toggleOption s k).currentIdx = s.currentIdx ∧
    (toggleOption s k).score = s.score ∧
    (toggleOption s k).history = s.history ∧
    (toggleOption s k).mode = s.mode ∧
    (toggleOption s k).showAnswer = s.showAnswer := by
  unfold toggleOption
  split <;> simp

theorem submitAnswer_frame (s : SessionState) :
    (submitAnswer s).allQs = s.allQs ∧ (submitAnswer s).setId = s.setId ∧
    (submitAnswer s).domain = s.domain ∧ (submitAnswer s).diff = s.diff ∧
    (submitAnswer s).currentIdx = s.currentIdx ∧
    (submitAnswer s).selected = s.selected ∧
    (submitAnswer s).mode = s.mode := by
  unfold submitAnswer
  cases currentQ s
  · simp
  · dsimp only
    split <;> simp

theorem submitAnswer_eq (s : SessionState) (cur : QuestionRow)
    (hc : currentQ s = some cur) (hs : s.selected ≠ []) :
    submitAnswer s =
      { s with
        score := s.score + (if answerOk s.selected cur.correct then 1 else 0),
        history := s.history ++
          [{ q := cur, sel := s.selected, ok := answerOk s.selected cur.correct }],
        showAnswer := true } := by
  unfold submitAnswer
  rw [hc]
  dsimp only
  rw [if_neg (by simpa [List.length_eq_zero] using hs)]

theorem startQuiz_of_nonempty (s : SessionState) (h : filteredQs s ≠ []) :
    startQuiz s =
      { s with currentIdx := 0, score := 0, selected := [], history := [],
               showAnswer := false, mode := Mode.quiz } := by
  unfold startQuiz
  rw [if_neg (by simpa [List.length_eq_zero] using h)]

/-! ### Reachability invariants -/

theorem runFrom_inv (P : SessionState → Prop)
    (hstep : ∀ s e, P s → P (step s e)) :
    ∀ es s, P s → P (runFrom s es) := by
  intro es
  induction es with
  | nil => intro s h; exact h
  | cons e es ih =>
    intro s h
    exact ih (step s e) (hstep s e h)

/-- The score always counts the `ok` entries of the history. -/
theorem step_score_inv (s : SessionState) (e : Event)
    (h : s.score = s.history.countP (fun x => x.ok)) :
    (step s e).score = (step s e).history.countP (fun x => x.ok) := by
  cases e with
  | setSetIdE v => rw [step_setSetIdE]; split <;> simpa
  | setDomainE v => rw [step_setDomainE]; split <;> simpa
  | setDiffE v => rw [step_setDiffE]; split <;> simpa
  | startE =>
    rw [step_startE]
    split
    · unfold startQuiz
      split <;> simpa
    · exact h
  | toggleE k =>
    rw [step_toggleE]
    split
    · obtain ⟨-, -, -, -, -, h6, h7, -, -⟩ := toggleOption_frame s k
      rw [h6, h7]; exact h
    · exact h
  | submitE =>
    rw [step_submitE]
    split
    · rename_i hp
      obtain ⟨h1, h2, h3, h4⟩ := hp
      obtain ⟨cur, hc⟩ := Option.isSome_iff_exists.mp h2
      rw [submitAnswer_eq s cur hc h4]
      simp [List.countP_append, List.countP_cons, h]
    · exact h
  | nextE =>
    rw [step_nextE]
    split
    · unfold nextQuestion
      split <;> simpa
    · exact h
  | resetE => rw [step_resetE]; simpa [resetQuiz]
  | viewReviewE => rw [step_viewReviewE]; split <;> simpa

theorem run_score_eq (qs : List QuestionRow) (es : List Event) :
    (run qs es).score = (run qs es).history.countP (fun x => x.ok) :=
  runFrom_inv (fun s => s.score = s.history.countP (fun x => x.ok))
    step_score_inv es (initState qs) rfl

/-- In quiz mode the current index stays inside the filtered list. -/
theorem step_idx_inv (s : SessionState) (e : Event)
    (h : s.mode = Mode.quiz → s.currentIdx < (filteredQs s).length) :
    (step s e).mode = Mode.quiz →
      (step s e).currentIdx < (filteredQs (step s e)).length := by
  cases e with
  | setSetIdE v =>
    rw [step_setSetIdE]
    split
    · rename_i hm; intro hq; simp at hq; rw [hq] at hm; cases hm
    · exact h
  | setDomainE v =>
    rw [step_setDomainE]
    split
    · rename_i hm; intro hq; simp at hq; rw [hq] at hm; cases hm
    · exact h
  | setDiffE v =>
    rw [step_setDiffE]
    split
    · rename_i hm; intro hq; simp at hq; rw [hq] at hm; cases hm
    · exact h
  | startE =>
    rw [step_startE]
    split
    · unfold startQuiz
      split
      · exact h
      · rename_i hlen
        intro _
        show 0 < (filteredQs s).length
        exact Nat.pos_of_ne_zero hlen
    · exact h
  | toggleE k =>
    rw [step_toggleE]
    split
    · obtain ⟨h1, h2, h3, h4, h5, -, -, h8, -⟩ := toggleOption_frame s k
      rw [h8, h5, filteredQs_congr _ _ h1 h2 h3 h4]
      exact h
    · exact h
  | submitE =>
    rw [step_submitE]
    split
    · obtain ⟨h1, h2, h3, h4, h5, -, h7⟩ := submitAnswer_frame s
      rw [h7, h5, filteredQs_congr _ _ h1 h2 h3 h4]
      exact h
    · exact h
  | nextE =>
    rw [step_nextE]
    split
    · rename_i hp
      unfold nextQuestion
      split
      · intro hq; simp at hq
      · rename_i hlt
        intro _
        show s.currentIdx + 1 < (filteredQs s).length
        exact Nat.lt_of_not_le hlt
    · exact h
  | resetE =>
    intro hq
    rw [step_resetE] at hq
    simp [resetQuiz] at hq
  | viewReviewE =>
    rw [step_viewReviewE]
    split
    · intro hq; simp at hq
    · exact h

theorem run_idx_inv (qs : List QuestionRow) (es : List Event) :
    (run qs es).mode = Mode.quiz →
      (run qs es).currentIdx < (filteredQs (run qs es)).length :=
  runFrom_inv
    (fun s => s.mode = Mode.quiz → s.currentIdx < (filteredQs s).length)
    step_idx_inv es (initState qs) (by intro hq; cases hq)

/-- The selection never holds a duplicate letter. -/
theorem step_nodup_inv (s : SessionState) (e : Event)
    (h : s.selected.Nodup) : (step s e).selected.Nodup := by
  cases e with
  | setSetIdE v => rw [step_setSetIdE]; split <;> simpa
  | setDomainE v => rw [step_setDomainE]; split <;> simpa
  | setDiffE v => rw [step_setDiffE]; split <;> simpa
  | startE =>
    rw [step_startE]
    split
    · unfold startQuiz
      split <;> simpa
    · exact h
  | toggleE k =>
    rw [step_toggleE]
    split
    · unfold toggleOption
      split
      · exact h
      · dsimp only
        split
        · split
          · exact h.filter _
          · rename_i hmem
            simp only [List.nodup_append]
            refine ⟨h, List.nodup_singleton k, ?_⟩
            intro x hx hk
            simp at hk
            subst hk
            exact hmem (by simpa using hx)
        · exact List.nodup_singleton k
    · exact h
  | submitE =>
    rw [step_submitE]
    split
    · obtain ⟨-, -, -, -, -, h6, -⟩ := submitAnswer_frame s
      rw [h6]; exact h
    · exact h
  | nextE =>
    rw [step_nextE]
    split
    · unfold nextQuestion
      split <;> simpa
    · exact h
  | resetE => rw [step_resetE]; simp [resetQuiz]
  | viewReviewE => rw [step_viewReviewE]; split <;> simpa

theorem run_nodup_inv (qs : List QuestionRow) (es : List Event) :
    (run qs es).selected.Nodup :=
  runFrom_inv (fun s => s.selected.Nodup) step_nodup_inv es (initState qs)
    List.nodup_nil

/-- The dataset loaded at startup is never modified by any event. -/
theorem step_allQs (s : SessionState) (e : Event) :
    (step s e).allQs = s.allQs := by
  cases e with
  | setSetIdE v => rw [step_setSetIdE]; split <;> rfl
  | setDomainE v => rw [step_setDomainE]; split <;> rfl
  | setDiffE v => rw [step_setDiffE]; split <;> rfl
  | startE =>
    rw [step_startE]
    split
    · unfold startQuiz; split <;> rfl
    · rfl
  | toggleE k =>
    rw [step_toggleE]
    split
    · exact (toggleOption_frame s k).1
    · rfl
  | submitE =>
    rw [step_submitE]
    split
    · exact (submitAnswer_frame s).1
    · rfl
  | nextE =>
    rw [step_nextE]
    split
    · unfold nextQuestion; split <;> rfl
    · rfl
  | resetE => rfl
  | viewReviewE => rw [step_viewReviewE]; split <;> rfl

/-! ### The submit counter matches the history length -/

theorem submitsSince_eq (es : List Event) :
    ∀ (s : SessionState) (c : Nat), c = s.history.length →
      submitsSince c s es = (runFrom s es).history.length := by
  induction es with
  | nil => intro s c h; exact h
  | cons e es ih =>
    intro s c h
    show submitsSince _ (step s e) es = (runFrom (step s e) es).history.length
    apply ih
    cases e with
    | setSetIdE v => rw [step_setSetIdE]; dsimp only; split <;> simpa
    | setDomainE v => rw [step_setDomainE]; dsimp only; split <;> simpa
    | setDiffE v => rw [step_setDiffE]; dsimp only; split <;> simpa
    | startE =>
      rw [step_startE]
      dsimp only
      by_cases hh : s.mode = Mode.home ∧ filteredQs s ≠ []
      · rw [if_pos hh, if_pos hh.1, startQuiz_of_nonempty s hh.2]
        rfl
      · rw [if_neg hh]
        by_cases hm : s.mode = Mode.home
        · rw [if_pos hm]
          unfold startQuiz
          rw [if_pos]
          · exact h
          · rw [List.length_eq_zero]
            by_contra hne
            exact hh ⟨hm, hne⟩
        · rw [if_neg hm]; exact h
    | toggleE k =>
      rw [step_toggleE]
      dsimp only
      split
      · rw [(toggleOption_frame s k).2.2.2.2.2.2.1]; exact h
      · exact h
    | submitE =>
      rw [step_submitE]
      dsimp only
      split
      · rename_i hp
        obtain ⟨h1, h2, h3, h4⟩ := hp
        obtain ⟨cur, hc⟩ := Option.isSome_iff_exists.mp h2
        rw [submitAnswer_eq s cur hc h4]
        simpa using h
      · exact h
    | nextE =>
      rw [step_nextE]
      dsimp only
      split
      · unfold nextQuestion; split <;> simpa
      · exact h
    | resetE => rfl
    | viewReviewE => rw [step_viewReviewE]; dsimp only; split <;> simpa

theorem run_history_length (qs : List QuestionRow) (es : List Event) :
    (run qs es).history.length = submitsSince 0 (initState qs) es :=
  (submitsSince_eq es (initState qs) 0 rfl).symm

/-! ### The string order used to model JavaScript sort -/

theorem lexLe_cons_iff (a b : Char) (as bs : List Char) :
    lexLe (a :: as) (b :: bs) = true ↔
      a.toNat < b.toNat ∨ (a.toNat = b.toNat ∧ lexLe as bs = true) := by
  simp only [lexLe]
  by_cases h1 : a.toNat < b.toNat
  · simp only [if_pos h1, true_iff]
    exact Or.inl h1
  · rw [if_neg h1]
    by_cases h2 : b.toNat < a.toNat
    · simp only [if_pos h2]
      constructor
      · intro hft; cases hft
      · rintro (h | ⟨he, -⟩) <;> exfalso <;> omega
    · have he : a.toNat = b.toNat := by omega
      simp only [if_neg h2]
      constructor
      · intro hr; exact Or.inr ⟨he, hr⟩
      · rintro (h | ⟨-, hr⟩)
        · omega
        · exact hr

theorem lexLe_total : ∀ as bs : List Char,
    lexLe as bs = true ∨ lexLe bs as = true := by
  intro as
  induction as with
  | nil => intro bs; left; rfl
  | cons a as ih =>
    intro bs
    cases bs with
    | nil => right; rfl
    | cons b bs =>
      rw [lexLe_cons_iff, lexLe_cons_iff]
      rcases Nat.lt_trichotomy a.toNat b.toNat with h | h | h
      · left; exact Or.inl h
      · rcases ih bs with hr | hr
        · left; exact Or.inr ⟨h, hr⟩
        · right; exact Or.inr ⟨h.symm, hr⟩
      · right; exact Or.inl h

theorem lexLe_trans : ∀ as bs cs : List Char,
    lexLe as bs = true → lexLe bs cs = true → lexLe as cs = true := by
  intro as
  induction as with
  | nil => intros; rfl
  | cons a as ih =>
    intro bs cs h1 h2
    cases bs with
    | nil => simp [lexLe] at h1
    | cons b bs =>
      cases cs with
      | nil => simp [lexLe] at h2
      | cons c cs =>
        rw [lexLe_cons_iff] at h1 h2 ⊢
        rcases h1 with h1 | ⟨h1e, h1r⟩
        · rcases h2 with h2 | ⟨h2e, -⟩
          · exact Or.inl (by omega)
          · exact Or.inl (by omega)
        · rcases h2 with h2 | ⟨h2e, h2r⟩
          · exact Or.inl (by omega)
          · exact Or.inr ⟨by omega, ih bs cs h1r h2r⟩

theorem sortedDistinct_sorted (vals : List String) :
    List.Sorted (fun a b => strLe a b = true) (sortedDistinct vals) := by
  haveI : IsTotal String (fun a b => strLe a b = true) :=
    ⟨fun a b => lexLe_total a.data b.data⟩
  haveI : IsTrans String (fun a b => strLe a b = true) :=
    ⟨fun a b c => lexLe_trans a.data b.data c.data⟩
  exact List.sorted_insertionSort _ _

theorem sortedDistinct_perm (vals : List String) :
    List.Perm (sortedDistinct vals) vals.dedup :=
  List.perm_insertionSort _ _

theorem sortedDistinct_nodup (vals : List String) :
    (sortedDistinct vals).Nodup :=
  (sortedDistinct_perm vals).nodup_iff.mpr (List.nodup_dedup vals)

theorem mem_sortedDistinct (vals : List String) (x : String) :
    x ∈ sortedDistinct vals ↔ x ∈ vals := by
  rw [(sortedDistinct_perm vals).mem_iff, List.mem_dedup]

/-! ### Set-equality characterisation of the scoring -/

theorem nodup_length_le_dedup (sel corr : List String) (hn : sel.Nodup)
    (hsub : ∀ x ∈ sel, x ∈ corr) : sel.length ≤ corr.dedup.length := by
  have h1 : sel.toFinset.card = sel.length := List.toFinset_card_of_nodup hn
  have h2 : corr.toFinset.card = corr.dedup.length := List.card_toFinset corr
  have h3 : sel.toFinset ⊆ corr.toFinset := by
    intro x hx
    rw [List.mem_toFinset] at hx ⊢
    exact hsub x hx
  calc sel.length = sel.toFinset.card := h1.symm
    _ ≤ corr.toFinset.card := Finset.card_le_card h3
    _ = corr.dedup.length := h2

theorem answerOk_iff_set_eq (sel : List String) (correct : String)
    (hs : sel.Nodup) (hc : (jsSplit correct ';').Nodup) :
    answerOk sel correct = true ↔
      (∀ x, x ∈ sel ↔ x ∈ jsSplit correct ';') := by
  unfold answerOk
  simp only [Bool.and_eq_true, beq_iff_eq, List.all_eq_true,
    List.elem_eq_mem, decide_eq_true_eq]
  constructor
  · rintro ⟨hlen, hall⟩ x
    have hsub : sel.toFinset ⊆ (jsSplit correct ';').toFinset := by
      intro y hy
      rw [List.mem_toFinset] at hy ⊢
      exact hall y hy
    have hcard : (jsSplit correct ';').toFinset.card ≤ sel.toFinset.card := by
      rw [List.toFinset_card_of_nodup hs, List.toFinset_card_of_nodup hc]
      omega
    have heq := Finset.eq_of_subset_of_card_le hsub hcard
    constructor
    · intro hx
      have hm : x ∈ sel.toFinset := List.mem_toFinset.mpr hx
      rw [heq] at hm
      exact List.mem_toFinset.mp hm
    · intro hx
      have hm : x ∈ (jsSplit correct ';').toFinset := List.mem_toFinset.mpr hx
      rw [← heq] at hm
      exact List.mem_toFinset.mp hm
  · intro hiff
    have heq : sel.toFinset = (jsSplit correct ';').toFinset := by
      ext x
      simp only [List.mem_toFinset]
      exact hiff x
    constructor
    · have hcard := congrArg Finset.card heq
      rwa [List.toFinset_card_of_nodup hs, List.toFinset_card_of_nodup hc]
        at hcard
    · intro x hx
      exact (hiff x).mp hx

theorem answerOk_false_of_dup_tokens (sel : List String) (correct : String)
    (hs : sel.Nodup) (hnd : ¬(jsSplit correct ';').Nodup) :
    answerOk sel correct = false := by
  by_contra hok
  rw [Bool.not_eq_false] at hok
  unfold answerOk at hok
  simp only [Bool.and_eq_true, beq_iff_eq, List.all_eq_true,
    List.elem_eq_mem, decide_eq_true_eq] at hok
  obtain ⟨hlen, hall⟩ := hok
  have hle : sel.length ≤ (jsSplit correct ';').dedup.length :=
    nodup_length_le_dedup sel (jsSplit correct ';') hs hall
  have hsub : List.Sublist (jsSplit correct ';').dedup (jsSplit correct ';') :=
    List.dedup_sublist _
  have hne : (jsSplit correct ';').dedup ≠ jsSplit correct ';' :=
    fun he => hnd (List.dedup_eq_self.mp he)
  have hlt : (jsSplit correct ';').dedup.length < (jsSplit correct ';').length :=
    Nat.lt_of_le_of_ne hsub.length_le (fun hl => hne (hsub.eq_of_length hl))
  omega

/-! ### The claims -/

/-- Claim C1, counterexample: in the reachable quiz state `sRepeatSel`
(mode `quiz`, reveal flag false, selection `["A"]`), the selection set
equals the set obtained by splitting the correct-answer spec `"A;A"` on
`";"` (mutual containment holds), yet submit records the answer as
incorrect, because the code compares the selection's length against the
token list's length without deduplicating the tokens. -/
theorem c1_counterexample :
    sRepeatSel.mode = Mode.quiz ∧ sRepeatSel.showAnswer = false ∧
    sRepeatSel.selected = ["A"] ∧
    currentQ sRepeatSel = some qRepeat ∧
    jsSplit qRepeat.correct ';' = ["A", "A"] ∧
    sRepeatSel.selected.all
      (fun x => (jsSplit qRepeat.correct ';').contains x) = true ∧
    (jsSplit qRepeat.correct ';').all
      (fun x => sRepeatSel.selected.contains x) = true ∧
    (step sRepeatSel Event.submitE).history.map (fun h => h.ok) = [false] := by
  decide

/-- Claim C1, amended: submit records exactly the flag
`answerOk selected correct`, which compares the selection's length with
the undeduplicated token list of the correct-answer spec; whenever that
token list is duplicate-free (and the selection is duplicate-free, as
every reachable selection is), this flag is `true` iff the selection set
equals the correct set. -/
theorem c1_exact_set_scoring :
    (∀ (s : SessionState) (cur : QuestionRow), currentQ s = some cur →
        s.selected ≠ [] →
        submitAnswer s =
          { s with
            score := s.score +
              (if answerOk s.selected cur.correct then 1 else 0),
            history := s.history ++
              [{ q := cur, sel := s.selected,
                 ok := answerOk s.selected cur.correct }],
            showAnswer := true }) ∧
    (∀ (sel : List String) (correct : String), sel.Nodup →
        (jsSplit correct ';').Nodup →
        (answerOk sel correct = true ↔
          (∀ x, x ∈ sel ↔ x ∈ jsSplit correct ';'))) :=
  ⟨submitAnswer_eq, answerOk_iff_set_eq⟩

/-- Claim C1, witness for the amended theorem at concrete inputs. -/
theorem c1_witness :
    ((["A"] : List String).Nodup ∧ (jsSplit "A" ';').Nodup ∧
      (answerOk ["A"] "A" = true ↔
        (∀ x, x ∈ (["A"] : List String) ↔ x ∈ jsSplit "A" ';'))) ∧
    (currentQ sSingleSel = some qSingle ∧ sSingleSel.selected ≠ [] ∧
      submitAnswer sSingleSel =
        { sSingleSel with
          score := sSingleSel.score +
            (if answerOk sSingleSel.selected qSingle.correct then 1 else 0),
          history := sSingleSel.history ++
            [{ q := qSingle, sel := sSingleSel.selected,
               ok := answerOk sSingleSel.selected qSingle.correct }],
          showAnswer := true }) :=
  ⟨⟨by decide, by decide, c1_exact_set_scoring.2 ["A"] "A" (by decide) (by decide)⟩,
   ⟨by decide, by decide, c1_exact_set_scoring.1 sSingleSel qSingle (by decide) (by decide)⟩⟩

/-- Claim C2: a record is in the filtered list iff it is in the dataset
and matches every dimension with a non-empty selection under exact
string equality, and the filtered list is a subsequence of the dataset
(hence preserves its order). -/
theorem c2_filter :
    (∀ (qs : List QuestionRow) (a b c : String) (q : QuestionRow),
        q ∈ applyFilters qs a b c ↔
          q ∈ qs ∧ (a = "" ∨ q.set_id = a) ∧ (b = "" ∨ q.domain = b) ∧
            (c = "" ∨ q.difficulty = c)) ∧
    (∀ (qs : List QuestionRow) (a b c : String),
        List.Sublist (applyFilters qs a b c) qs) := by
  constructor
  · intro qs a b c q
    unfold applyFilters
    rw [List.mem_filter]
    simp [and_assoc]
  · intro qs a b c
    exact List.filter_sublist qs

/-- Claim C3: along every session trace, the score equals the number of
history entries whose correctness flag is true, and the history length
equals the number of submit actions issued since the last
session-clearing action (successful start or reset). -/
theorem c3_score_and_history :
    ∀ (qs : List QuestionRow) (es : List Event),
      (run qs es).score = (run qs es).history.countP (fun h => h.ok) ∧
      (run qs es).history.length = submitsSince 0 (initState qs) es :=
  fun qs es => ⟨run_score_eq qs es, run_history_length qs es⟩

/-- Claim C4: from a quiz state with the answer revealed, `next` moves
to `results` when the incremented index reaches the active list length
and otherwise advances the index clearing selection and reveal flag;
and in every reachable quiz-mode state the index is within bounds. -/
theorem c4_next :
    (∀ s : SessionState, s.mode = Mode.quiz → s.showAnswer = true →
        (s.currentIdx + 1 ≥ (filteredQs s).length →
            nextQuestion s = { s with mode := Mode.results }) ∧
        (s.currentIdx + 1 < (filteredQs s).length →
            nextQuestion s =
              { s with currentIdx := s.currentIdx + 1, selected := [],
                       showAnswer := false })) ∧
    (∀ (qs : List QuestionRow) (es : List Event),
        (run qs es).mode = Mode.quiz →
          (run qs es).currentIdx < (filteredQs (run qs es)).length) := by
  constructor
  · intro s _ _
    constructor
    · intro hge
      unfold nextQuestion
      rw [if_pos hge]
    · intro hlt
      unfold nextQuestion
      rw [if_neg (by omega)]
  · exact run_idx_inv

/-- Claim C4, witness: the one-question session transitions to results,
and a freshly started session is in bounds. -/
theorem c4_witness :
    (sSingleDone.mode = Mode.quiz ∧ sSingleDone.showAnswer = true ∧
      sSingleDone.currentIdx + 1 ≥ (filteredQs sSingleDone).length ∧
      nextQuestion sSingleDone = { sSingleDone with mode := Mode.results }) ∧
    (sSingleStart.mode = Mode.quiz ∧
      sSingleStart.currentIdx < (filteredQs sSingleStart).length) := by
  refine ⟨⟨by decide, by decide, by decide, ?_⟩, ⟨by decide, ?_⟩⟩
  · exact (c4_next.1 sSingleDone (by decide) (by decide)).1 (by decide)
  · exact c4_next.2 [qSingle] [Event.startE] (by decide)

/-- Claim C5: a submit action in any state that violates the
preconditions (not in quiz mode, or answer already revealed, or empty
selection) leaves the state unchanged — the Submit control is only
rendered in quiz mode before reveal and is disabled on an empty
selection; independently, the handler itself returns early on an empty
selection. -/
theorem c5_submit_guard :
    (∀ s : SessionState,
        (s.mode ≠ Mode.quiz ∨ s.showAnswer = true ∨ s.selected = []) →
          step s Event.submitE = s) ∧
    (∀ s : SessionState, s.selected = [] → submitAnswer s = s) := by
  constructor
  · intro s hviol
    rw [step_submitE, if_neg]
    rintro ⟨h1, -, h3, h4⟩
    rcases hviol with hv | hv | hv
    · exact hv h1
    · rw [hv] at h3; cases h3
    · exact h4 hv
  · intro s hsel
    unfold submitAnswer
    split
    · rfl
    · rw [if_pos (by rw [hsel]; rfl)]

/-- Claim C5, witness: submit in a revealed state is a no-op, and the
handler is a no-op on an empty selection. -/
theorem c5_witness :
    (sSingleDone.showAnswer = true ∧
      step sSingleDone Event.submitE = sSingleDone) ∧
    ((initState []).selected = [] ∧
      submitAnswer (initState []) = initState []) :=
  ⟨⟨by decide, c5_submit_guard.1 sSingleDone (Or.inr (Or.inl (by decide)))⟩,
   ⟨by decide, c5_submit_guard.2 (initState []) (by decide)⟩⟩

/-- Claim C6: start with an empty filtered list changes nothing (the
handler only raises a blocking alert), and start with a non-empty
filtered list resets every session field and enters quiz mode. -/
theorem c6_start_guard :
    (∀ s : SessionState, s.mode = Mode.home → filteredQs s = [] →
        startQuiz s = s) ∧
    (∀ s : SessionState, filteredQs s ≠ [] →
        startQuiz s =
          { s with currentIdx := 0, score := 0, selected := [], history := [],
                   showAnswer := false, mode := Mode.quiz }) := by
  constructor
  · intro s _ hemp
    unfold startQuiz
    rw [if_pos (by rw [hemp]; rfl)]
  · exact startQuiz_of_nonempty

/-- Claim C6, witness: the empty dataset blocks start in home mode, and
a one-question dataset starts a session. -/
theorem c6_witness :
    ((initState []).mode = Mode.home ∧ filteredQs (initState []) = [] ∧
      startQuiz (initState []) = initState []) ∧
    (filteredQs (initState [qSingle]) ≠ [] ∧
      startQuiz (initState [qSingle]) =
        { initState [qSingle] with
          currentIdx := 0, score := 0, selected := [], history := [],
          showAnswer := false, mode := Mode.quiz }) :=
  ⟨⟨by decide, by decide, c6_start_guard.1 (initState []) (by decide) (by decide)⟩,
   ⟨by decide, c6_start_guard.2 (initState [qSingle]) (by decide)⟩⟩

/-- Claim C7, counterexample: for the one-question dataset `[qSingle]`
(all difficulties `"easy"`), the offered difficulty option list is the
hardcoded `["easy", "medium", "hard"]`, not the sorted distinct values
`["easy"]` of the dataset's difficulty field. -/
theorem c7_counterexample :
    difficultyOptions ≠
      sortedDistinct (List.map (fun q => q.difficulty) [qSingle]) := by
  decide

/-- Claim C7, amended: the set and domain option lists are the sorted
distinct values of their fields across the full dataset and the dataset
never changes under any event (so the lists are independent of the
filter selection); the difficulty option list, however, is the fixed
constant `["easy", "medium", "hard"]`, independent of the dataset. -/
theorem c7_amended_options :
    (∀ qs : List QuestionRow,
        setOptions qs = sortedDistinct (qs.map (fun q => q.set_id)) ∧
        List.Sorted (fun a b => strLe a b = true) (setOptions qs) ∧
        (setOptions qs).Nodup ∧
        (∀ x, x ∈ setOptions qs ↔ x ∈ qs.map (fun q => q.set_id))) ∧
    (∀ qs : List QuestionRow,
        domainOptions qs = sortedDistinct (qs.map (fun q => q.domain)) ∧
        List.Sorted (fun a b => strLe a b = true) (domainOptions qs) ∧
        (domainOptions qs).Nodup ∧
        (∀ x, x ∈ domainOptions qs ↔ x ∈ qs.map (fun q => q.domain))) ∧
    difficultyOptions = ["easy", "medium", "hard"] ∧
    (∀ (s : SessionState) (e : Event), (step s e).allQs = s.allQs) := by
  refine ⟨?_, ?_, rfl, step_allQs⟩
  · intro qs
    exact ⟨rfl, sortedDistinct_sorted _, sortedDistinct_nodup _,
      fun x => mem_sortedDistinct _ x⟩
  · intro qs
    exact ⟨rfl, sortedDistinct_sorted _, sortedDistinct_nodup _,
      fun x => mem_sortedDistinct _ x⟩

/-- Claim C8: reset is reachable from every state, returns to home, and
clears index, score, selection, history and reveal flag while leaving
the dataset and the three filter selections untouched. -/
theorem c8_reset_frame :
    ∀ s : SessionState,
      step s Event.resetE = resetQuiz s ∧
      (resetQuiz s).mode = Mode.home ∧ (resetQuiz s).currentIdx = 0 ∧
      (resetQuiz s).score = 0 ∧ (resetQuiz s).selected = [] ∧
      (resetQuiz s).history = [] ∧ (resetQuiz s).showAnswer = false ∧
      (resetQuiz s).allQs = s.allQs ∧ (resetQuiz s).setId = s.setId ∧
      (resetQuiz s).domain = s.domain ∧ (resetQuiz s).diff = s.diff :=
  fun s => ⟨rfl, rfl, rfl, rfl, rfl, rfl, rfl, rfl, rfl, rfl, rfl⟩

/-- Claim C9: the selection of every reachable state is duplicate-free,
and the toggle handler replaces the selection with a singleton on a
non-multi current question, removes a present letter, and appends an
absent one on a multi question. -/
theorem c9_selection_set :
    (∀ (qs : List QuestionRow) (es : List Event), (run qs es).selected.Nodup) ∧
    (∀ (s : SessionState) (k : String), s.showAnswer = false →
        currentIsMulti s = false →
        toggleOption s k = { s with selected := [k] }) ∧
    (∀ (s : SessionState) (k : String), s.showAnswer = false →
        currentIsMulti s = true → s.selected.contains k = true →
        toggleOption s k =
          { s with selected := s.selected.filter (fun i => i != k) }) ∧
    (∀ (s : SessionState) (k : String), s.showAnswer = false →
        currentIsMulti s = true → s.selected.contains k = false →
        toggleOption s k = { s with selected := s.selected ++ [k] }) := by
  refine ⟨run_nodup_inv, ?_, ?_, ?_⟩
  · intro s k hsa hm
    unfold toggleOption
    rw [if_neg (by rw [hsa]; simp), if_neg (by rw [hm]; simp)]
  · intro s k hsa hm hk
    unfold toggleOption
    rw [if_neg (by rw [hsa]; simp), if_pos hm, if_pos hk]
  · intro s k hsa hm hk
    unfold toggleOption
    rw [if_neg (by rw [hsa]; simp), if_pos hm, if_neg (by rw [hk]; simp)]

/-- Claim C9, witness: concrete toggles on the fixture sessions. -/
theorem c9_witness :
    sMultiB.selected.Nodup ∧
    (sSingleStart.showAnswer = false ∧ currentIsMulti sSingleStart = false ∧
      toggleOption sSingleStart "A" = { sSingleStart with selected := ["A"] }) ∧
    (sMultiB.showAnswer = false ∧ currentIsMulti sMultiB = true ∧
      sMultiB.selected.contains "B" = true ∧
      toggleOption sMultiB "B" =
        { sMultiB with selected := sMultiB.selected.filter (fun i => i != "B") }) ∧
    (sMultiStart.showAnswer = false ∧ currentIsMulti sMultiStart = true ∧
      sMultiStart.selected.contains "B" = false ∧
      toggleOption sMultiStart "B" =
        { sMultiStart with selected := sMultiStart.selected ++ ["B"] }) :=
  ⟨c9_selection_set.1 [qMulti] [Event.startE, Event.toggleE "B"],
   ⟨by decide, by decide,
     c9_selection_set.2.1 sSingleStart "A" (by decide) (by decide)⟩,
   ⟨by decide, by decide, by decide,
     c9_selection_set.2.2.1 sMultiB "B" (by decide) (by decide) (by decide)⟩,
   ⟨by decide, by decide, by decide,
     c9_selection_set.2.2.2 sMultiStart "B" (by decide) (by decide) (by decide)⟩⟩

/-- Claim C10: the correctness flag compares the selection's length
against the token count of splitting the correct spec on `";"` without
deduplication, so for a correct spec with a repeated token no
duplicate-free selection is ever scored correct — even one that equals
the token set (every reachable selection is duplicate-free). -/
theorem c10_dup_correct_spec :
    ∀ (sel : List String) (correct : String), sel.Nodup →
      ¬(jsSplit correct ';').Nodup → answerOk sel correct = false :=
  fun sel correct hs hnd => answerOk_false_of_dup_tokens sel correct hs hnd

/-- Claim C10, witness: the selection `["A"]` against the spec `"A;A"`
is scored incorrect although it equals the token set. -/
theorem c10_witness :
    (["A"] : List String).Nodup ∧ ¬(jsSplit "A;A" ';').Nodup ∧
      answerOk ["A"] "A;A" = false :=
  ⟨by decide, by decide, c10_dup_correct_spec ["A"] "A;A" (by decide) (by decide)⟩

end AzQuiz
